import Mathlib

/-
  Verification of the arf parser (src/include/arf.hpp, class detail::parser_impl)
  against its natural-language specification.

  The embedding mirrors the C++ source line by line:
  * std::string is modelled as List Char (Chars);
  * std::map<std::string, T> is modelled as an association list with
    insert-or-assign semantics (operator[] assignment);
  * the vector<category*> category_stack_ is modelled as the path of category
    names from a top-level category downwards -- the stack in the source is
    always such a chain (each pushed pointer is a child of the previous one),
    and a category node always carries the same name it is keyed under;
  * functions that can throw (std::stoll, std::stod) return Except, and the
    exception propagates out of parse exactly as a C++ exception would;
  * IEEE doubles are modelled opaquely by the literal std::stod accepted,
    since no property under study inspects a float value.
-/

namespace Arf

/-- Characters of a C++ std::string. -/
abbrev Chars := List Char

/-- Membership of the character set " \t\r\n" used by parser_impl::trim. -/
def is_trim_space (c : Char) : Bool :=
  c = ' ' || c = '\t' || c = '\r' || c = '\n'

/-- The C locale isspace set, used by istringstream extraction and by std::stoll / std::stod. -/
def is_stream_space (c : Char) : Bool :=
  c = ' ' || c = '\t' || c = '\n' || c = '\x0b' || c = '\x0c' || c = '\r'

/-- parser_impl::trim: strip leading and trailing characters of " \t\r\n". -/
def trim (s : Chars) : Chars :=
  ((s.dropWhile is_trim_space).reverse.dropWhile is_trim_space).reverse

/-- Helper for split_lines: split on the newline character. -/
def split_lines_aux : Chars → Chars → List Chars
  | [], cur => [cur.reverse]
  | c :: rest, cur =>
    if c = '\n' then cur.reverse :: split_lines_aux rest []
    else split_lines_aux rest (c :: cur)

/-- parser_impl::split_lines: the std::getline loop. An empty input yields no
lines, and a trailing newline does not yield a final empty line. -/
def split_lines (s : Chars) : List Chars :=
  match s with
  | [] => []
  | _ =>
    let parts := split_lines_aux s []
    if s.getLast? = some '\n' then parts.dropLast else parts

/-- arf::value_type. -/
inductive value_type where
  | string
  | integer
  | decimal
  | boolean
  | date
  | string_array
  | int_array
  | float_array
deriving DecidableEq, Repr

/-- Opaque model of a C++ double: the literal accepted by std::stod. No claim
under study inspects a floating point value, so the numeric semantics is
irrelevant here. -/
structure cppDouble where
  lit : Chars
deriving DecidableEq, Repr

/-- The exceptions std::stoll and std::stod can throw. -/
inductive ParseExn where
  | invalid_argument
  | out_of_range
deriving DecidableEq, Repr

/-- arf::value, the std::variant of scalar and array payloads. -/
inductive value where
  | vstr (s : Chars)
  | vint (n : Int)
  | vfloat (d : cppDouble)
  | vbool (b : Bool)
  | vstrArr (xs : List Chars)
  | vintArr (xs : List Int)
  | vfloatArr (xs : List cppDouble)
deriving DecidableEq, Repr

/-- arf::column. -/
structure column where
  name : Chars
  type : value_type
deriving DecidableEq, Repr

/-- arf::category: name, key_values map, table columns, table rows, and the
subcategory map. std::map is modelled as an association list. -/
inductive category where
  | mk (name : Chars)
       (key_values : List (Chars × Chars))
       (table_columns : List column)
       (table_rows : List (List value))
       (subcategories : List (Chars × category))

def category.name : category → Chars
  | .mk n _ _ _ _ => n

def category.key_values : category → List (Chars × Chars)
  | .mk _ kv _ _ _ => kv

def category.table_columns : category → List column
  | .mk _ _ tc _ _ => tc

def category.table_rows : category → List (List value)
  | .mk _ _ _ tr _ => tr

def category.subcategories : category → List (Chars × category)
  | .mk _ _ _ _ sc => sc

def category.set_key_values : category → List (Chars × Chars) → category
  | .mk n _ tc tr sc, kv => .mk n kv tc tr sc

def category.set_table_columns : category → List column → category
  | .mk n kv _ tr sc, tc => .mk n kv tc tr sc

def category.add_table_row : category → List value → category
  | .mk n kv tc tr sc, row => .mk n kv tc (tr ++ [row]) sc

def category.set_subcategories : category → List (Chars × category) → category
  | .mk n kv tc tr _, sc => .mk n kv tc tr sc

/-- arf::document: the std::map of top-level categories. -/
structure document where
  categories : List (Chars × category)

/-- std::map::find. -/
def al_find {α : Type} (k : Chars) : List (Chars × α) → Option α
  | [] => none
  | (k1, v) :: rest => if k1 = k then some v else al_find k rest

/-- std::map operator[] assignment: replace the value when the key is present,
insert otherwise. -/
def al_insert_or_assign {α : Type} (k : Chars) (v : α) : List (Chars × α) → List (Chars × α)
  | [] => [(k, v)]
  | (k1, v1) :: rest =>
    if k1 = k then (k, v) :: rest else (k1, v1) :: al_insert_or_assign k v rest

/-- Apply a function to the entry of a key, when present. -/
def al_modify {α : Type} (k : Chars) (f : α → α) : List (Chars × α) → List (Chars × α)
  | [] => []
  | (k1, v1) :: rest =>
    if k1 = k then (k1, f v1) :: rest else (k1, v1) :: al_modify k f rest

/-- Navigate a category along a path of subcategory names. -/
def cat_get : List Chars → category → Option category
  | [], c => some c
  | n :: rest, c => (al_find n c.subcategories).bind (cat_get rest)

/-- Navigate a document along a path: the head names a top-level category. An
empty path designates no category (the document has no root node). -/
def doc_get (d : document) : List Chars → Option category
  | [] => none
  | n :: rest => (al_find n d.categories).bind (cat_get rest)

/-- Rewrite the category a path of names points at. This models a write through
the category pointer at the top of parser_impl::category_stack_. -/
def cat_update (f : category → category) : List Chars → category → category
  | [], c => f c
  | n :: rest, c =>
    c.set_subcategories (al_modify n (fun sub => cat_update f rest sub) c.subcategories)

/-- Document-level form of cat_update. -/
def doc_update (f : category → category) (path : List Chars) (d : document) : document :=
  match path with
  | [] => d
  | n :: rest => ⟨al_modify n (fun c => cat_update f rest c) d.categories⟩

/-- The mutable scan state of parser_impl. category_stack_ (a vector of
pointers into the document tree) is represented by the chain of names from the
top-level category to the current one. -/
structure parser_state where
  doc : document
  category_stack : List Chars
  current_table : List column
  in_table_mode : Bool
  table_mode_depth : Nat

/-- State at the top of parser_impl::parse. -/
def init_state : parser_state :=
  { doc := ⟨[]⟩
    category_stack := []
    current_table := []
    in_table_mode := false
    table_mode_depth := 0 }

/-- parser_impl::parse_type: map a declared type token; every unrecognized
token silently becomes value_type::string. -/
def parse_type (t : Chars) : value_type :=
  if t = "int".data then .integer
  else if t = "float".data then .decimal
  else if t = "bool".data then .boolean
  else if t = "date".data then .date
  else if t = "str[]".data then .string_array
  else if t = "int[]".data then .int_array
  else if t = "float[]".data then .float_array
  else .string

/-- Value of a run of decimal digits. -/
def digits_val (ds : Chars) : Nat :=
  ds.foldl (fun a c => a * 10 + (c.toNat - '0'.toNat)) 0

def int64_min : Int := -9223372036854775808

def int64_max : Int := 9223372036854775807

/-- std::stoll, base 10: skip isspace, optional sign, then at least one digit
(invalid_argument otherwise); trailing garbage is ignored; out_of_range when
the value does not fit in long long. -/
def stoll (s : Chars) : Except ParseExn Int :=
  let t := s.dropWhile is_stream_space
  let sign : Int := match t with
    | '-' :: _ => -1
    | _ => 1
  let rest : Chars := match t with
    | '+' :: r => r
    | '-' :: r => r
    | r => r
  let ds := rest.takeWhile (fun c => c.isDigit)
  if ds = [] then .error .invalid_argument
  else
    let v : Int := sign * (digits_val ds : Int)
    if v < int64_min ∨ int64_max < v then .error .out_of_range else .ok v

/-- Recognizer for the literals std::stod accepts: optional isspace run and
sign, then a digit, a dot followed by a digit, or an inf / nan form.
(Hexadecimal float literals are not modelled; no claim depends on them.) -/
def stod_accepts (s : Chars) : Bool :=
  let t := s.dropWhile is_stream_space
  let r : Chars := match t with
    | '+' :: rest => rest
    | '-' :: rest => rest
    | rest => rest
  let l := r.map Char.toLower
  match r with
  | [] => false
  | c :: rest =>
    c.isDigit
      || (c = '.' && (match rest with | d :: _ => d.isDigit | [] => false))
      || l.take 3 = "inf".data
      || l.take 3 = "nan".data

/-- std::stod: throws invalid_argument when no conversion is possible. The
accepted double is kept opaquely. -/
def stod (s : Chars) : Except ParseExn cppDouble :=
  if stod_accepts s then .ok ⟨s⟩ else .error .invalid_argument

/-- Loop body of parser_impl::split_array: accumulate characters, and at each
bar delimiter convert and emit the current element only when it is non-empty
(empty elements are dropped, not recorded). -/
def split_array_aux {α : Type} (conv : Chars → Except ParseExn α) : Chars → Chars → Except ParseExn (List α)
  | [], cur =>
    if cur = [] then .ok [] else (conv (trim cur)).map (fun v => [v])
  | c :: rest, cur =>
    if c = '|' then
      if cur = [] then split_array_aux conv rest []
      else do
        let v ← conv (trim cur)
        let vs ← split_array_aux conv rest []
        .ok (v :: vs)
    else split_array_aux conv rest (cur ++ [c])

/-- parser_impl::split_array. -/
def split_array {α : Type} (conv : Chars → Except ParseExn α) (s : Chars) : Except ParseExn (List α) :=
  split_array_aux conv s []

/-- parser_impl::parse_value: typed coercion of one literal. string and date
fall to the default branch and keep the literal. -/
def parse_value (s : Chars) (t : value_type) : Except ParseExn value :=
  match t with
  | .integer => (stoll s).map value.vint
  | .decimal => (stod s).map value.vfloat
  | .boolean => .ok (value.vbool (s = "true".data || s = "yes".data || s = "1".data))
  | .string_array => (split_array (fun x => .ok x) s).map value.vstrArr
  | .int_array => (split_array stoll s).map value.vintArr
  | .float_array => (split_array stod s).map value.vfloatArr
  | _ => .ok (value.vstr s)

/-- Loop body of parser_impl::split_table_cells: a run of two or more spaces
ends a field; a single embedded space is content. -/
def split_table_cells_aux : Chars → Chars → Nat → List Chars
  | [], cur, _ => if cur = [] then [] else [trim cur]
  | c :: rest, cur, spaces =>
    if c = ' ' then
      if spaces + 1 ≥ 2 ∧ cur ≠ [] then trim cur :: split_table_cells_aux rest [] 0
      else split_table_cells_aux rest cur (spaces + 1)
    else
      let cur1 := if spaces = 1 then cur ++ [' '] else cur
      split_table_cells_aux rest (cur1 ++ [c]) 0

/-- parser_impl::split_table_cells. -/
def split_table_cells (line : Chars) : List Chars :=
  split_table_cells_aux line [] 0

/-- The cell padding and truncation of parser_impl::parse_table_row: push
empty strings while there are fewer cells than columns, then resize down to
the column count. -/
def pad_cells (cells : List Chars) (n : Nat) : List Chars :=
  (cells ++ List.replicate (n - cells.length) []).take n

/-- The row-building loop of parser_impl::parse_table_row: convert cells in
order, aborting at the first exception. -/
def mapE {α β : Type} (f : α → Except ParseExn β) : List α → Except ParseExn (List β)
  | [] => .ok []
  | x :: xs =>
    match f x with
    | .error e => .error e
    | .ok y =>
      match mapE f xs with
      | .error e => .error e
      | .ok ys => .ok (y :: ys)

/-- Cell list and typed row built by parser_impl::parse_table_row for one line
against a column schema. -/
def make_row (line : Chars) (cols : List column) : Except ParseExn (List value) :=
  mapE (fun p => parse_value p.1 p.2.type) ((pad_cells (split_table_cells line) cols.length).zip cols)

/-- Helper for the istringstream token loop of parse_table_header: split on
isspace runs, dropping empty tokens. -/
def split_ws_aux : Chars → Chars → List Chars
  | [], cur => if cur = [] then [] else [cur.reverse]
  | c :: rest, cur =>
    if is_stream_space c then
      if cur = [] then split_ws_aux rest []
      else cur.reverse :: split_ws_aux rest []
    else split_ws_aux rest (c :: cur)

def split_ws (s : Chars) : List Chars :=
  split_ws_aux s []

/-- parser_impl::parse_top_level_category: reset all scope and table state,
install (or overwrite) the named top-level category, and make it the single
open scope. -/
def parse_top_level_category (line : Chars) (st : parser_state) : parser_state :=
  let name := trim line.dropLast
  { st with
    category_stack := [name]
    in_table_mode := false
    current_table := []
    table_mode_depth := 0
    doc := ⟨al_insert_or_assign name (category.mk name [] [] [] []) st.doc.categories⟩ }

/-- parser_impl::parse_subcategory_open: ignored when no scope is open;
otherwise insert a child under the innermost scope (inheriting the current
table columns while in table mode) and push it. -/
def parse_subcategory_open (line : Chars) (st : parser_state) : parser_state :=
  if st.category_stack = [] then st
  else
    let name := trim (line.drop 1)
    let cols := if st.in_table_mode then st.current_table else []
    let sub := category.mk name [] cols [] []
    { st with
      doc := doc_update
        (fun parent => parent.set_subcategories (al_insert_or_assign name sub parent.subcategories))
        st.category_stack st.doc
      category_stack := st.category_stack ++ [name] }

/-- Reverse search of the open-scope stack: index of the innermost scope with
the given name. Category nodes always carry the name they are keyed under, so
comparing path components is the same as comparing the pointed-to names. -/
def rfind_name (stack : List Chars) (name : Chars) : Option Nat :=
  match stack.reverse.findIdx? (fun n => n == name) with
  | some j => some (stack.length - 1 - j)
  | none => none

/-- parser_impl::parse_subcategory_close: ignored with at most one open scope.
An empty name, the literal name subcategory, or the innermost name pops one
scope; otherwise the stack is searched from the innermost outward and erased
down to (but keeping) the named scope; an unmatched name pops one scope. While
in table mode the newly current scope inherits the remembered columns when it
has none. -/
def parse_subcategory_close (line : Chars) (st : parser_state) : parser_state :=
  if st.category_stack.length ≤ 1 then st
  else
    let name := trim (line.drop 1)
    let st1 :=
      if name = [] ∨ name = "subcategory".data ∨ st.category_stack.getLast? = some name then
        { st with category_stack := st.category_stack.dropLast }
      else
        match rfind_name st.category_stack name with
        | some i => { st with category_stack := st.category_stack.take (i + 1) }
        | none =>
          if st.category_stack.length > 1 then
            { st with category_stack := st.category_stack.dropLast }
          else st
    if st1.in_table_mode ∧ ¬ st1.category_stack = [] then
      { st1 with
        doc := doc_update
          (fun cur =>
            if cur.table_columns = [] ∧ ¬ st1.current_table = [] then
              cur.set_table_columns st1.current_table
            else cur)
          st1.category_stack st1.doc }
    else st1

/-- parser_impl::parse_table_header: tokenize the header, split each token at
its first colon into a column name and declared type (string when absent),
enter table mode at the current depth, and install the columns on the innermost
scope when one is open. -/
def parse_table_header (line : Chars) (st : parser_state) : parser_state :=
  let header := trim (line.drop 1)
  let cols : List column := (split_ws header).map (fun tok =>
    match tok.findIdx? (fun c => c == ':') with
    | some p => { name := tok.take p, type := parse_type (tok.drop (p + 1)) }
    | none => { name := tok, type := value_type.string })
  let st1 : parser_state := { st with
    current_table := cols
    in_table_mode := true
    table_mode_depth := st.category_stack.length }
  if st1.category_stack = [] then st1
  else
    { st1 with
      doc := doc_update (fun cur => cur.set_table_columns cols) st1.category_stack st1.doc }

/-- parser_impl::parse_key_value: split at the first equals sign, trim both
sides, and assign into the innermost scope (dropped when no scope is open).
Nothing here parses a declared type: any annotation stays part of the key. -/
def parse_key_value (line : Chars) (st : parser_state) : parser_state :=
  match line.findIdx? (fun c => c == '=') with
  | none => st
  | some p =>
    let key := trim (line.take p)
    let v := trim (line.drop (p + 1))
    if st.category_stack = [] then st
    else
      { st with
        doc := doc_update
          (fun cur => cur.set_key_values (al_insert_or_assign key v cur.key_values))
          st.category_stack st.doc }

/-- parser_impl::parse_table_row: ignored without columns or an open scope;
otherwise split, pad and truncate the cells to the column count, convert each
cell per its column type (a conversion failure escapes as an exception), and
append the row to the innermost scope. -/
def parse_table_row (line : Chars) (st : parser_state) : Except ParseExn parser_state :=
  if st.current_table = [] ∨ st.category_stack = [] then .ok st
  else do
    let row ← make_row line st.current_table
    .ok { st with
      doc := doc_update (fun cur => cur.add_table_row row) st.category_stack st.doc }

/-- parser_impl::parse_line: the dispatch over one trimmed line. -/
def parse_line (st : parser_state) (line : Chars) : Except ParseExn parser_state :=
  let t := trim line
  if t = [] then
    .ok (if st.in_table_mode ∧ st.category_stack.length = st.table_mode_depth then
      { st with in_table_mode := false, table_mode_depth := 0 }
    else st)
  else if t.take 2 = ['/', '/'] then .ok st
  else if t.getLast? = some ':' ∧ t.head? ≠ some ':' ∧ t.head? ≠ some '#' then
    .ok (parse_top_level_category t st)
  else if t.head? = some ':' then .ok (parse_subcategory_open t st)
  else if t.head? = some '/' then .ok (parse_subcategory_close t st)
  else if t.head? = some '#' then .ok (parse_table_header t st)
  else if ('=' ∈ t) ∧ st.in_table_mode = false then .ok (parse_key_value t st)
  else if st.in_table_mode then parse_table_row t st
  else .ok st

/-- parser_impl::parse / arf::parse: fold the line dispatcher over the input
lines. An exception escaping any line aborts the whole parse. -/
def parse (input : String) : Except ParseExn document := do
  let st ← (split_lines input.data).foldlM parse_line init_state
  .ok st.doc

/-- Observation: the exception parse aborts with, when it aborts. -/
def parse_exn (s : String) : Option ParseExn :=
  match parse s with
  | .ok _ => none
  | .error e => some e

/-- Observation: the names of the top-level categories of a parsed document. -/
def top_category_names (s : String) : Option (List String) :=
  match parse s with
  | .ok d => some (d.categories.map (fun p => String.mk p.1))
  | .error _ => none

/-- Observation: the stored value of a key, addressed by the category path from
a top-level category. -/
def key_at (s : String) (path : List String) (k : String) : Option String :=
  match parse s with
  | .ok d =>
    match doc_get d (path.map String.data) with
    | some c => (al_find k.data c.key_values).map String.mk
    | none => none
  | .error _ => none

/-- Observation: parse_value under the declared str[] element type, as a list
of strings. -/
def parse_value_strings (s : String) : Option (List String) :=
  match parse_value s.data value_type.string_array with
  | .ok (value.vstrArr xs) => some (xs.map String.mk)
  | _ => none

/-
  The reflection resolver. The address-resolution engine (arf::reflect,
  resolve_ex and resolve_context in the tests) is part of this repository but
  its implementation file is not under src/ -- only its tests and the spec
  describe it. The following definitions are therefore modelled from the
  spec, section 4.4 and section 7.
-/

/-- Modelled from the spec: a typed value held by the document graph the
resolver walks (the resolver implementation is missing from src). -/
inductive svalue where
  | sint (n : Int)
  | sstr (s : String)

/-- Modelled from the spec: a category node of the built document graph the
resolver walks, with its keys and subcategories. -/
inductive scategory where
  | mk (name : String) (keys : List (String × svalue)) (subs : List scategory)

def scategory.name : scategory → String
  | .mk n _ _ => n

def scategory.keys : scategory → List (String × svalue)
  | .mk _ ks _ => ks

def scategory.subs : scategory → List scategory
  | .mk _ _ cs => cs

/-- Modelled from the spec: the address steps used by the claims under study
(enter-top-category, enter-sub-category, select-key). -/
inductive resolve_step where
  | top (name : String)
  | sub (name : String)
  | key (name : String)

/-- Modelled from the spec: the resolution failure kinds relevant to the steps
above. -/
inductive resolve_error_kind where
  | top_category_after_category
  | no_category_context
  | top_category_not_found
  | sub_category_not_found
  | key_not_found
  | structure_after_value
deriving DecidableEq, Repr

/-- Modelled from the spec: the resolver cursor -- the current category, a flag
recording whether the cursor has descended into any non-root category, and the
value cursor once a key step has run. -/
structure resolve_cursor where
  cat : scategory
  in_non_root : Bool
  val : Option svalue

/-- Find a direct subcategory by name. -/
def find_sub (n : String) : List scategory → Option scategory
  | [] => none
  | c :: rest => if c.name = n then some c else find_sub n rest

/-- Find a key by name. -/
def find_key (n : String) : List (String × svalue) → Option svalue
  | [] => none
  | (k, v) :: rest => if k = n then some v else find_key n rest

/-- Modelled from the spec: one resolution step. A top-category step is legal
only while the cursor has not yet descended into any non-root category; a
sub-category step needs a non-root category cursor; a key step sets the value
cursor; once the value cursor is set no structural step is legal. -/
def resolve_step_apply (root : scategory) (cur : resolve_cursor) :
    resolve_step → Except resolve_error_kind resolve_cursor
  | .top n =>
    if cur.val.isSome then .error .structure_after_value
    else if cur.in_non_root then .error .top_category_after_category
    else
      match find_sub n root.subs with
      | some c => .ok { cur with cat := c, in_non_root := true }
      | none => .error .top_category_not_found
  | .sub n =>
    if cur.val.isSome then .error .structure_after_value
    else if cur.in_non_root = false then .error .no_category_context
    else
      match find_sub n cur.cat.subs with
      | some c => .ok { cur with cat := c }
      | none => .error .sub_category_not_found
  | .key n =>
    if cur.val.isSome then .error .structure_after_value
    else
      match find_key n cur.cat.keys with
      | some v => .ok { cur with val := some v }
      | none => .error .key_not_found

/-- Modelled from the spec: walk the steps in order; the first failing step
aborts immediately, reporting that step index and the error kind. -/
def resolve_aux (root : scategory) : List resolve_step → Nat → resolve_cursor →
    Except (Nat × resolve_error_kind) (Option svalue)
  | [], _, cur => .ok cur.val
  | s :: rest, i, cur =>
    match resolve_step_apply root cur s with
    | .ok cur1 => resolve_aux root rest (i + 1) cur1
    | .error e => .error (i, e)

/-- Modelled from the spec: full resolution from the root cursor. -/
def resolve (root : scategory) (steps : List resolve_step) :
    Except (Nat × resolve_error_kind) (Option svalue) :=
  resolve_aux root steps 0 ⟨root, false, none⟩

/-- Modelled from the spec: the document of the claim -- a top-level category
a holding a nested subcategory b with a key x (the source text a: / :b: /
x = 1 of the repository test). -/
def resolver_demo_doc : scategory :=
  .mk "" [] [.mk "a" [] [.mk "b" [("x", svalue.sint 1)] []]]

end Arf

namespace Arf

/-! Helper lemmas shared by the claim theorems. -/

theorem al_find_insert_self {α : Type} (m : List (Chars × α)) (k : Chars) (v : α) :
    al_find k (al_insert_or_assign k v m) = some v := by
  induction m with
  | nil => simp [al_insert_or_assign, al_find]
  | cons hd tl ih =>
    obtain ⟨k1, v1⟩ := hd
    by_cases h : k1 = k
    · simp [al_insert_or_assign, al_find, h]
    · simp [al_insert_or_assign, al_find, h, ih]

theorem mapE_ok_length {α β : Type} (f : α → Except ParseExn β) :
    ∀ (xs : List α) (ys : List β), mapE f xs = .ok ys → ys.length = xs.length := by
  intro xs
  induction xs with
  | nil =>
    intro ys h
    simp only [mapE] at h
    cases h
    rfl
  | cons x xs ih =>
    intro ys h
    simp only [mapE] at h
    cases hf : f x with
    | error e => rw [hf] at h; cases h
    | ok y =>
      rw [hf] at h
      cases hm : mapE f xs with
      | error e => rw [hm] at h; cases h
      | ok zs =>
        rw [hm] at h
        cases h
        simp [ih zs hm]

theorem pad_cells_length (cells : List Chars) (n : Nat) :
    (pad_cells cells n).length = n := by
  simp only [pad_cells, List.length_take, List.length_append, List.length_replicate]
  omega

/-! Theorems settling the claims. -/

/-- Claim C1: the spec states that parsing is total over any input text --
load never throws, and a literal that does not parse as its declared type is
recorded as a diagnostic. The parser in src/include/arf.hpp instead lets the
std::invalid_argument of std::stoll escape parse_value: a table with an int
column and a non-numeric cell aborts the whole parse, and the code has no
diagnostic channel at all. -/
theorem C1_parse_aborts_on_bad_int_cell :
    parse_exn "cat:\n# a:int\n  hello" = some ParseExn.invalid_argument := by decide

/-- Claim C2: the spec states that the document always contains a root
category and every ancestor chain ends at it. The document type of
src/include/arf.hpp has no root node: parsing the empty input yields a
document with no categories at all, and a top-level key line is dropped for
want of a category to own it. -/
theorem C2_no_root_category :
    top_category_names "" = some [] ∧ top_category_names "x = 1" = some [] := by decide

/-- Claim C3, counterexample: the claim states that the first occurrence of a
duplicated key wins. In the code the later std::map assignment overwrites, so
after x = 1 and x = 2 in one category the stored value is not the first
occurrence. -/
theorem C3_duplicate_key_counterexample :
    (key_at "t:\nx = 1\nx = 2" ["t"] "x" == some "1") = false := by decide

/-- Claim C3, as amended: assigning a key name twice in one owning category
silently overwrites -- the later occurrence wins and no diagnostic exists --
while the same key name in two different categories is independent and never
an error. -/
theorem C3_duplicate_key_amended :
    (∀ (m : List (Chars × Chars)) (k v : Chars),
        al_find k (al_insert_or_assign k v m) = some v)
    ∧ key_at "t:\nx = 1\nx = 2" ["t"] "x" = some "2"
    ∧ parse_exn "t:\nx = 1\nx = 2" = none
    ∧ key_at "a:\nx = 1\nb:\nx = 2" ["a"] "x" = some "1"
    ∧ key_at "a:\nx = 1\nb:\nx = 2" ["b"] "x" = some "2" :=
  ⟨fun m k v => al_find_insert_self m k v, by decide, by decide, by decide, by decide⟩

/-- Claim C4: the spec states that a close marker matching no open scope is
reported as invalid_category_close and leaves the open-scope stack untouched.
The code has no diagnostics and pops the innermost scope instead: after
opening t and subcategory a, the unmatched close of b silently closes a, so
the following key lands in t and a stays empty. -/
theorem C4_unmatched_close_pops_scope :
    key_at "t:\n:a\n/b\nk = 1" ["t"] "k" = some "1"
    ∧ key_at "t:\n:a\n/b\nk = 1" ["t", "a"] "k" = none := by decide

/-- Claim C5: the spec states that after the three opens of a, b, c one named
close of a collapses exactly the three nested scopes. In the code a
leading-colon open is ignored when no category is open, so the exact input of
the repository test produces an empty document; and nested inside a top-level
category, the named close keeps the matched scope itself open -- a key after
the close of a still lands in a. -/
theorem C5_named_close_keeps_match_open :
    top_category_names ":a\n  :b\n    :c\n/a" = some []
    ∧ key_at "t:\n:a\n:b\n:c\n/a\nk = 1" ["t", "a"] "k" = some "1" := by decide

/-- Claim C6: the spec states that empty elements of a declared array are
preserved as valid missing placeholders. In the code a key line never parses
a declared type -- the annotation stays inside the key name and the literal is
stored verbatim -- and the array splitter that typed table cells use drops
empty elements outright, so a||b| has two elements and no placeholders. -/
theorem C6_array_empties_dropped :
    key_at "t:\narr:str[] = a||b|" ["t"] "arr:str[]" = some "a||b|"
    ∧ key_at "t:\narr:str[] = a||b|" ["t"] "arr" = none
    ∧ parse_value_strings "a||b|" = some ["a", "b"] := by decide

/-- Claim C7: without a declared array type the bar character is inert:
parse_value under the (default) string type returns the whole literal as one
plain string, and a key line stores the literal 1|2|3 verbatim. -/
theorem C7_untyped_literal_stays_string :
    (∀ s : Chars, parse_value s value_type.string = Except.ok (value.vstr s))
    ∧ key_at "t:\narr = 1|2|3" ["t"] "arr" = some "1|2|3" :=
  ⟨fun _ => rfl, by decide⟩

/-- Claim C8: the spec states that an unrecognized declared type name raises
invalid_declared_type and materialization proceeds with tacit string
ascription. In the code parse_type silently maps every unknown token to
string, key lines never consult parse_type at all (the annotation stays in the
key name), a top-level key line is dropped outright, and no diagnostic is ever
produced. -/
theorem C8_unknown_type_name_silent :
    parse_type "dragon".data = value_type.string
    ∧ top_category_names "x:dragon = 42" = some []
    ∧ key_at "t:\nx:dragon = 42" ["t"] "x:dragon" = some "42"
    ∧ key_at "t:\nx:dragon = 42" ["t"] "x" = none := by decide

/-- Claim C9: resolving top a, top b, key x on a document where a nests b
fails at step index 1 with top_category_after_category, while top a, sub b,
key x on the same document resolves the key. The resolver is modelled from
the spec because its implementation is not under src. -/
theorem C9_top_after_category :
    resolve resolver_demo_doc [resolve_step.top "a", resolve_step.top "b", resolve_step.key "x"]
      = Except.error (1, resolve_error_kind.top_category_after_category)
    ∧ resolve resolver_demo_doc [resolve_step.top "a", resolve_step.sub "b", resolve_step.key "x"]
      = Except.ok (some (svalue.sint 1)) :=
  ⟨rfl, rfl⟩

/-- Claim C10: the cell list of a table row is padded with empty strings when
it is shorter than the column schema and truncated when longer, and every row
the parser materializes has exactly one typed cell per column. -/
theorem C10_row_arity :
    (∀ (cells : List Chars) (n : Nat), cells.length ≤ n →
        pad_cells cells n = cells ++ List.replicate (n - cells.length) [])
    ∧ (∀ (cells : List Chars) (n : Nat), n ≤ cells.length →
        pad_cells cells n = cells.take n)
    ∧ (∀ (line : Chars) (cols : List column) (row : List value),
        make_row line cols = Except.ok row → row.length = cols.length) := by
  refine ⟨?_, ?_, ?_⟩
  · intro cells n h
    simp only [pad_cells]
    apply List.take_of_length_le
    simp only [List.length_append, List.length_replicate]
    omega
  · intro cells n h
    simp only [pad_cells, Nat.sub_eq_zero_of_le h, List.replicate_zero, List.append_nil]
  · intro line cols row h
    have hl := mapE_ok_length _ _ _ h
    rw [List.length_zip, pad_cells_length] at hl
    simpa [Nat.min_self] using hl

/-- Witness for claim C10 at concrete inputs: a one-cell line against three
columns pads with two empty cells, a three-cell line against two columns keeps
the first two, and the row built from the line 1  2 against two string columns
has exactly two cells. -/
theorem C10_row_arity_witness :
    pad_cells ["a".data] 3 = ["a".data] ++ List.replicate 2 []
    ∧ pad_cells ["a".data, "b".data, "c".data] 2 = ["a".data, "b".data, "c".data].take 2
    ∧ ([value.vstr "1".data, value.vstr "2".data] : List value).length
        = ([⟨"x".data, value_type.string⟩, ⟨"y".data, value_type.string⟩] : List column).length := by
  refine ⟨C10_row_arity.1 _ 3 (by decide), C10_row_arity.2.1 _ 2 (by decide),
    C10_row_arity.2.2 "1  2".data _ _ ?_⟩
  rfl

end Arf
